import Mathlib

/-!
Verification of the untappd API client library (github.com/mdlayher/untappd).

This file gives a shallow embedding, in Lean 4, of the request/response
pipeline of the library: the JSON scalar decoders (`responseDuration`,
`responseBool`, `responseBadgeLevels`), the error classifier
(`checkResponse`), the raw-to-domain mapping (`rawCheckin.export`), the
checkin-list assembly (`getCheckins`), query/credential injection
(`Client.request`), the user checkin endpoints, and client construction.
Go features are modelled as follows: JSON documents are an inductive `Json`
value (a number remembers whether its literal was an integer literal, since
Go's `encoding/json` refuses to decode `1.5` — or even `1.0` — into an `int`);
fallible decoding returns `Except`; a Go panic (out-of-range slice index,
negative `make` length, nil-pointer dereference) is modelled by an `Option`
result being `none`; `float64` values are idealized as rationals; `time.Time`
values and URLs are carried opaquely.
-/

deriving instance DecidableEq for Except

namespace Untappd

/-- Decode errors produced by `encoding/json` and by the library's custom
scalar decoders.  `syntaxError` stands for a JSON syntax error (malformed
bytes), `typeMismatch` for `encoding/json`'s unmarshal-type error,
`invalidBool` for `errInvalidBool`, `invalidTimeUnit` for
`errInvalidTimeUnit`, and `durationParse` for a raw `time.ParseDuration`
error other than a missing unit (unreachable from the fixed unit table). -/
inductive DecodeErr where
  | syntaxError
  | typeMismatch
  | invalidBool
  | invalidTimeUnit
  | durationParse
  deriving DecidableEq, Repr

/-- JSON documents.  A number is split by the shape of its literal:
`int n` is a number written as an integer literal (matched by Go's
`strconv.ParseInt` when decoding into an `int` field), while `float q` is a
number whose literal has a fraction or exponent part (which `encoding/json`
refuses to decode into an `int`, even when its value is integral). -/
inductive Json where
  | null
  | bool (b : Bool)
  | int (n : Int)
  | float (q : ℚ)
  | str (s : String)
  | arr (elems : List Json)
  | obj (fields : List (String × Json))

/-- Look up the JSON object field decoded into a Go struct field with tag
`key`.  Go's decoder processes the object's keys in order, so a repeated key
overwrites: the last occurrence wins.  A non-object has no fields. -/
def Json.getField? (j : Json) (key : String) : Option Json :=
  match j with
  | .obj fields => fields.foldl (fun acc kv => if kv.1 = key then some kv.2 else acc) none
  | _ => none

/-- Go `json.Unmarshal` of a JSON value into an `int` variable: an integer
literal is parsed, `null` leaves the variable at its zero value `0`, and
anything else (including a float literal) is an unmarshal-type error. -/
def decodeInt (j : Json) : Except DecodeErr Int :=
  match j with
  | .int n => .ok n
  | .null => .ok 0
  | _ => .error .typeMismatch

/-- Go `json.Unmarshal` of a JSON value into a `string` variable. -/
def decodeString (j : Json) : Except DecodeErr String :=
  match j with
  | .str s => .ok s
  | .null => .ok ""
  | _ => .error .typeMismatch

/-- Go `json.Unmarshal` of a JSON value into a `float64` variable; both
number literal shapes are accepted. -/
def decodeFloat (j : Json) : Except DecodeErr ℚ :=
  match j with
  | .int n => .ok (n : ℚ)
  | .float q => .ok q
  | .null => .ok 0
  | _ => .error .typeMismatch

/-- Decode a struct field with JSON tag `key` from object `j` using `dec`:
an absent field leaves the Go field at the given zero value. -/
def decodeField (j : Json) (key : String) (dec : Json → Except DecodeErr α) (zero : α) :
    Except DecodeErr α :=
  match j.getField? key with
  | none => .ok zero
  | some jv => dec jv

/-- The `timeUnits` map of `responseDuration.UnmarshalJSON`, including Go's
zero-value behavior: looking up an unknown measure in the map yields the
empty string. -/
def timeUnits (measure : String) : String :=
  if measure = "milliseconds" then "ms"
  else if measure = "seconds" then "s"
  else if measure = "minutes" then "m"
  else ""

/-- Nanoseconds per Go duration unit suffix, restricted to the suffixes the
`timeUnits` table can produce (`time.ParseDuration`'s full unit map is wider,
but only these are reachable from this library). -/
def unitNanos? (suffix : String) : Option Int :=
  if suffix = "ms" then some 1000000
  else if suffix = "s" then some 1000000000
  else if suffix = "m" then some 60000000000
  else none

/-- Failure modes of `time.ParseDuration` on the strings this library
produces: a number with no unit suffix, or an unrecognized suffix. -/
inductive goDurationErr where
  | missingUnit
  | unknownUnit
  deriving DecidableEq, Repr

/-- Number of microseconds-of-unit written by `fmt.Sprintf("%f", t)`: the
`%f` verb renders exactly six decimal places, rounding the float to the
nearest multiple of one millionth (ties are idealized upward; an exact tie
cannot arise from a binary float64).  Computed on the rational's numerator
and denominator so the value reduces inside the kernel. -/
def goMicros (t : ℚ) : Int :=
  Int.ediv (2 * (t.num * 1000000) + (t.den : Int)) (2 * (t.den : Int))

/-- Value, in integer nanoseconds, of `time.ParseDuration` applied to a
six-decimal-place rendering (`micros` microseconds-of-unit) followed by
`suffix`.  An empty suffix is the "missing unit in duration" error.  Every
reachable unit is a whole number of microseconds, so the sub-nanosecond
truncation `ParseDuration` performs is exact here. -/
def goParseDurationNs (micros : Int) (suffix : String) : Except goDurationErr Int :=
  if suffix = "" then .error .missingUnit
  else
    match unitNanos? suffix with
    | some u => .ok (micros * (u / 1000000))
    | none => .error .unknownUnit

/-- Core of `responseDuration.UnmarshalJSON` after the `{"time", "measure"}`
pair has been decoded: format the time with `%f` (six decimal places), append
the mapped unit suffix, and parse; a missing unit (unknown measure) is
reported as `errInvalidTimeUnit`, any other parse error is returned as-is. -/
def responseDuration.unmarshalParsed (t : ℚ) (measure : String) : Except DecodeErr Int :=
  match goParseDurationNs (goMicros t) (timeUnits measure) with
  | .error .missingUnit => .error .invalidTimeUnit
  | .error .unknownUnit => .error .durationParse
  | .ok d => .ok d

/-- `responseDuration.UnmarshalJSON`: decode the wire object
`{"time": <float64>, "measure": <string>}` (absent fields keep their zero
values; `null` leaves the whole struct zero) and convert to nanoseconds. -/
def responseDuration.unmarshalJSON (data : Json) : Except DecodeErr Int :=
  match data with
  | .obj _ => do
      let t ← decodeField data "time" decodeFloat 0
      let m ← decodeField data "measure" decodeString ""
      responseDuration.unmarshalParsed t m
  | .null => responseDuration.unmarshalParsed 0 ""
  | _ => .error .typeMismatch

/-- `responseBool.UnmarshalJSON`: decode a JSON value into an `int`, then
accept exactly `0` (false) and `1` (true); any other integer is
`errInvalidBool`. -/
def responseBool.unmarshalJSON (data : Json) : Except DecodeErr Bool := do
  let v ← decodeInt data
  if v = 0 then .ok false
  else if v = 1 then .ok true
  else .error .invalidBool

/-- Result shape of `responseBadgeLevels`: a server-reported count and the
decoded items.  The item type is a parameter so the envelope logic can be
stated independently of the badge decoder it delegates to. -/
structure responseBadgeLevels (α : Type) where
  count : Int
  items : List α
  deriving DecidableEq, Repr

/-- Decode each element of a JSON array in order, failing on the first
element error, as `encoding/json` does for a slice. -/
def decodeList (decodeItem : Json → Except DecodeErr α) : List Json → Except DecodeErr (List α)
  | [] => .ok []
  | x :: xs => do
      let v ← decodeItem x
      let vs ← decodeList decodeItem xs
      .ok (v :: vs)

/-- Go `json.Unmarshal` of a JSON value into a slice, decoding each element
with `decodeItem`; `null` leaves the slice nil. -/
def decodeArray (decodeItem : Json → Except DecodeErr α) : Json → Except DecodeErr (List α)
  | .arr xs => decodeList decodeItem xs
  | .null => .ok []
  | _ => .error .typeMismatch

/-- The object arm of `responseBadgeLevels.UnmarshalJSON`: decode
`{"count": <int>, "items": [...]}` with Go struct-field semantics. -/
def responseBadgeLevels.decodeObject (decodeItem : Json → Except DecodeErr α) (data : Json) :
    Except DecodeErr (responseBadgeLevels α) :=
  match data with
  | .obj _ => do
      let c ← decodeField data "count" decodeInt 0
      let its ← decodeField data "items" (decodeArray decodeItem) []
      .ok ⟨c, its⟩
  | .null => .ok ⟨0, []⟩
  | _ => .error .typeMismatch

/-- `responseBadgeLevels.UnmarshalJSON`: the exact byte sequence `[]` is
special-cased first (the API's "no levels" sentinel), leaving the zero value;
only otherwise is the object shape decoded. -/
def responseBadgeLevels.unmarshalJSON (decodeItem : Json → Except DecodeErr α) (data : Json) :
    Except DecodeErr (responseBadgeLevels α) :=
  match data with
  | .arr [] => .ok ⟨0, []⟩
  | _ => responseBadgeLevels.decodeObject decodeItem data

/-! ### Domain model and raw wire counterparts (checkin path)

`url.URL` values are carried as their string form and `time.Time` values as
the wire timestamp they were parsed from; neither is inspected by any
property below.  Slices of pointers (`[]*T`) are `List (Option T)`, a nil
pointer being `none`. -/

/-- A `url.URL`, carried as a string. -/
abbrev urlString := String

/-- A `time.Time`, carried opaquely as its wire representation. -/
abbrev goTime := String

/-- `UserStats` (user.go). -/
structure UserStats where
  totalBadges : Int
  totalFriends : Int
  totalCheckins : Int
  totalBeers : Int
  totalCreatedBeers : Int
  totalFollowings : Int
  totalPhotos : Int
  deriving DecidableEq, Repr

/-- `rawUser` (user.go); the `supporter` field has already been decoded by
`responseBool`. -/
structure rawUser where
  uid : Int
  id : Int
  userName : String
  firstName : String
  lastName : String
  avatar : urlString
  avatarHD : urlString
  coverPhoto : urlString
  location : String
  url : urlString
  bio : String
  supporter : Bool
  untappdURL : urlString
  stats : UserStats
  deriving DecidableEq, Repr

/-- Exported `User` (user.go). -/
structure User where
  uid : Int
  id : Int
  userName : String
  firstName : String
  lastName : String
  location : String
  bio : String
  supporter : Bool
  avatar : urlString
  coverPhoto : urlString
  url : urlString
  untappdURL : urlString
  stats : UserStats
  deriving DecidableEq, Repr

/-- `rawUser.export`: field-for-field copy, preferring the high-resolution
avatar when it is non-empty. -/
def rawUser.export (r : rawUser) : User :=
  let u : User :=
    ⟨r.uid, r.id, r.userName, r.firstName, r.lastName, r.location, r.bio, r.supporter,
      r.avatar, r.coverPhoto, r.url, r.untappdURL, r.stats⟩
  if r.avatarHD ≠ "" then { u with avatar := r.avatarHD } else u

/-- `BreweryLocation` (brewery.go). -/
structure BreweryLocation where
  city : String
  state : String
  latitude : ℚ
  longitude : ℚ
  deriving DecidableEq, Repr

/-- `BreweryContact` (brewery.go). -/
structure BreweryContact where
  twitter : String
  facebook : String
  instagram : String
  url : String
  deriving DecidableEq, Repr

/-- `rawBrewery` (brewery.go). -/
structure rawBrewery where
  id : Int
  name : String
  slug : String
  logo : urlString
  country : String
  active : Bool
  location : BreweryLocation
  contact : BreweryContact
  breweryType : String
  typeID : Int
  deriving DecidableEq, Repr

/-- Exported `Brewery` (brewery.go; Go field `Type` is `breweryType`). -/
structure Brewery where
  id : Int
  name : String
  slug : String
  logo : urlString
  country : String
  active : Bool
  location : BreweryLocation
  contact : BreweryContact
  breweryType : String
  typeID : Int
  deriving DecidableEq, Repr

/-- `rawBrewery.export`: field-for-field copy. -/
def rawBrewery.export (r : rawBrewery) : Brewery :=
  ⟨r.id, r.name, r.slug, r.logo, r.country, r.active, r.location, r.contact,
    r.breweryType, r.typeID⟩

/-- `rawBeer` (beer.go). -/
structure rawBeer where
  id : Int
  name : String
  label : urlString
  labelHD : urlString
  abv : ℚ
  ibu : Int
  slug : String
  style : String
  description : String
  created : goTime
  wishList : Bool
  overallRating : ℚ
  overallCount : Int
  brewery : Option rawBrewery
  deriving DecidableEq, Repr

/-- Exported `Beer` (beer.go); the user-specific fields are zero on this
path and are set by other endpoints after export. -/
structure Beer where
  id : Int
  name : String
  label : urlString
  labelHD : urlString
  abv : ℚ
  ibu : Int
  slug : String
  style : String
  description : String
  created : goTime
  wishList : Bool
  overallRating : ℚ
  overallCount : Int
  userRating : ℚ
  firstHad : goTime
  recentHad : goTime
  wishListed : goTime
  count : Int
  brewery : Option Brewery
  deriving DecidableEq, Repr

/-- `rawBeer.export`: field-for-field copy; the nested brewery is attached
only when present (non-nil), and the user-specific fields stay zero. -/
def rawBeer.export (r : rawBeer) : Beer :=
  { id := r.id, name := r.name, label := r.label, labelHD := r.labelHD, abv := r.abv,
    ibu := r.ibu, slug := r.slug, style := r.style, description := r.description,
    created := r.created, wishList := r.wishList, overallRating := r.overallRating,
    overallCount := r.overallCount, userRating := 0, firstHad := "", recentHad := "",
    wishListed := "", count := 0, brewery := r.brewery.map rawBrewery.export }

/-- `VenueLocation` (venue.go). -/
structure VenueLocation where
  address : String
  city : String
  state : String
  country : String
  latitude : ℚ
  longitude : ℚ
  deriving DecidableEq, Repr

/-- `VenueFoursquare` (venue.go). -/
structure VenueFoursquare where
  id : String
  url : String
  deriving DecidableEq, Repr

/-- `rawVenue` (venue.go), restricted to its scalar fields.  The venue's own
`top_beers` and `checkins` sub-lists are populated only by the venue-info
endpoint's payload, not by the venue sub-object of a checkin, and none of
the properties below inspect them; they are omitted here together with the
index loops that size them. -/
structure rawVenue where
  id : Int
  name : String
  updated : goTime
  category : String
  public : Bool
  location : VenueLocation
  foursquare : VenueFoursquare
  deriving DecidableEq, Repr

/-- Exported `Venue` (venue.go), restricted as `rawVenue` is. -/
structure Venue where
  id : Int
  name : String
  updated : goTime
  category : String
  public : Bool
  location : VenueLocation
  foursquare : VenueFoursquare
  deriving DecidableEq, Repr

/-- `rawVenue.export`, on the modelled fields. -/
def rawVenue.export (r : rawVenue) : Venue :=
  ⟨r.id, r.name, r.updated, r.category, r.public, r.location, r.foursquare⟩

/-- `responseVenue` has the same underlying struct as `rawVenue` (its
`UnmarshalJSON` only supplies the empty-array special case); the conversion
`rawVenue(r.Venue)` in `rawCheckin.export` is the identity here. -/
abbrev responseVenue := rawVenue

/-- `rawBadgeMedia` / `BadgeMedia` (badge.go): three image links. -/
structure BadgeMedia where
  smallImage : urlString
  mediumImage : urlString
  largeImage : urlString
  deriving DecidableEq, Repr

/-- `rawBadge` (badge.go): a badge whose `levels` field holds further
badges, one level deep on the wire but recursive in the type. -/
inductive rawBadge where
  | mk (id : Int) (checkinID : Int) (name : String) (description : String)
      (hint : String) (active : Bool) (media : BadgeMedia) (earned : goTime)
      (levels : responseBadgeLevels rawBadge)

/-- Exported `Badge` (badge.go); `levels` entries may be nil pointers. -/
inductive Badge where
  | mk (id : Int) (checkinID : Int) (name : String) (description : String)
      (hint : String) (active : Bool) (media : BadgeMedia) (earned : goTime)
      (levels : List (Option Badge))

/-- `rawToast` (toast.go); the authoring user arrives behind a pointer. -/
structure rawToast where
  id : Int
  userID : Int
  created : goTime
  user : Option rawUser
  deriving DecidableEq, Repr

/-- Exported `Toast` (toast.go). -/
structure Toast where
  id : Int
  userID : Int
  created : goTime
  user : User
  deriving DecidableEq, Repr

/-- `rawToast.export`: dereferences the user pointer; a nil user is the
nil-pointer panic, modelled as `none`. -/
def rawToast.export (r : rawToast) : Option Toast :=
  match r.user with
  | none => none
  | some u => some ⟨r.id, r.userID, r.created, rawUser.export u⟩

/-- Evaluate a list of possibly-panicking slice writes: `none` anywhere is a
panic of the whole loop. -/
def sequenceOpt : List (Option β) → Option (List β)
  | [] => some []
  | none :: _ => none
  | some v :: xs =>
      match sequenceOpt xs with
      | none => none
      | some vs => some (v :: vs)

/-- The library's list-assembly idiom
`s := make([]T, count); for i := range items { s[i] = f(items[i]) }`:
`make` panics when `count` is negative, the write `s[i]` panics as soon as
`i` reaches `count` (so whenever `items` is longer than `count`), and when
`items` is shorter than `count` the tail keeps the zero value `zero`.
`mapped` is the list of per-element results, `none` being a panic inside the
element function itself. -/
def fillByIndex (count : Int) (mapped : List (Option β)) (zero : β) : Option (List β) :=
  if count < 0 then none
  else if count.toNat < mapped.length then none
  else (sequenceOpt mapped).map (fun xs => xs ++ List.replicate (count.toNat - mapped.length) zero)

mutual
/-- `rawBadge.export` (badge.go): field-for-field copy plus the badge-level
loop `levels := make([]*Badge, r.Levels.Count)` populated by index, which
panics when the count undercounts the items. -/
def rawBadge.export : rawBadge → Option Badge
  | .mk id checkinID name description hint active media earned levels =>
      (fillByIndex levels.count (exportBadgePtrs levels.items) none).map
        (fun lv => .mk id checkinID name description hint active media earned lv)

/-- Per-element results of the badge-level loop: each slice write stores a
non-nil pointer to the exported badge, unless that export itself panics. -/
def exportBadgePtrs : List rawBadge → List (Option (Option Badge))
  | [] => []
  | b :: bs => (rawBadge.export b).map some :: exportBadgePtrs bs
end

/-- `rawCheckin` (checkin.go); the anonymous `Badges` and `Toasts` structs
are flattened into count/items field pairs. -/
structure rawCheckin where
  id : Int
  beer : rawBeer
  brewery : rawBrewery
  user : rawUser
  venue : responseVenue
  userRating : ℚ
  comment : String
  created : goTime
  badgesCount : Int
  badgesItems : List rawBadge
  toastsCount : Int
  toastsItems : List rawToast

/-- Exported `Checkin` (checkin.go).  `user`, `beer` and `brewery` pointers
are always freshly allocated by export, so they are carried directly;
`venue` is nil when no venue was attached. -/
structure Checkin where
  id : Int
  created : goTime
  comment : String
  userRating : ℚ
  user : User
  beer : Beer
  brewery : Brewery
  venue : Option Venue
  badges : List (Option Badge)
  toasts : List (Option Toast)

/-- `rawCheckin.export` (checkin.go): copy the scalar fields, export the
nested beer/brewery/user, attach the venue only when the wire venue has both
a nonzero ID and a non-empty name, then assemble the badge and toast lists
with the count-sized index loops (whose panics propagate as `none`). -/
def rawCheckin.export (r : rawCheckin) : Option Checkin := do
  let venue : Option Venue :=
    if r.venue.id ≠ 0 ∧ r.venue.name ≠ "" then some (rawVenue.export r.venue) else none
  let badges ← fillByIndex r.badgesCount
    (exportBadgePtrs r.badgesItems) none
  let toasts ← fillByIndex r.toastsCount
    (r.toastsItems.map (fun t => (rawToast.export t).map some)) none
  pure ⟨r.id, r.created, r.comment, r.userRating, rawUser.export r.user,
    rawBeer.export r.beer, rawBrewery.export r.brewery, venue, badges, toasts⟩

/-- The slice-assembly step of `Client.getCheckins` (client.go lines
350-356), applied after the request has succeeded and the envelope
`response.checkins` has been decoded into a `count` and an `items` list:
`checkins := make([]*Checkin, count)` populated by index from the exported
items. -/
def getCheckinsBuild (count : Int) (items : List rawCheckin) : Option (List (Option Checkin)) :=
  fillByIndex count (items.map (fun r => (rawCheckin.export r).map some)) none

/-! ### Error classifier (`checkResponse`, client.go) -/

/-- The JSON content type constant `jsonContentType`. -/
def jsonContentType : String := "application/json"

/-- An HTTP response as seen by `checkResponse`: the `Content-Type` header
(`res.Header.Get` yields the empty string when the header is absent), the
status code, and the body.  A body that is not well-formed JSON is `none`;
the decoder reports a syntax error on it. -/
structure httpResponse where
  contentType : String
  statusCode : Int
  body : Option Json

/-- The `meta` portion of the API error envelope, as decoded into
`checkResponse`'s intermediary struct.  `responseTime` is in integer
nanoseconds (Go `time.Duration`). -/
structure errorMeta where
  code : Int
  errorDetail : String
  errorType : String
  developerFriendly : String
  responseTime : Int
  deriving DecidableEq, Repr

/-- Zero value of the intermediary meta struct. -/
def errorMeta.zero : errorMeta := ⟨0, "", "", "", 0⟩

/-- Decode the inner meta object with Go struct-field semantics (absent
fields keep their zero values; the `response_time` field is decoded by
`responseDuration.UnmarshalJSON`, which is not invoked when the field is
absent). -/
def decodeErrorMeta (j : Json) : Except DecodeErr errorMeta :=
  match j with
  | .obj _ => do
      let code ← decodeField j "code" decodeInt 0
      let detail ← decodeField j "error_detail" decodeString ""
      let etype ← decodeField j "error_type" decodeString ""
      let dev ← decodeField j "developer_friendly" decodeString ""
      let rt ← match j.getField? "response_time" with
               | none => Except.ok 0
               | some jv => responseDuration.unmarshalJSON jv
      .ok ⟨code, detail, etype, dev, rt⟩
  | .null => .ok errorMeta.zero
  | _ => .error .typeMismatch

/-- Decode the whole error envelope into `checkResponse`'s intermediary
struct: an object whose `meta` field (if present) holds the meta object. -/
def decodeAPIErr (j : Json) : Except DecodeErr errorMeta :=
  match j with
  | .obj _ =>
      match j.getField? "meta" with
      | none => .ok errorMeta.zero
      | some jm => decodeErrorMeta jm
  | .null => .ok errorMeta.zero
  | _ => .error .typeMismatch

/-- The exported `Error` type (field `Type` is `errType` here since `type`
is reserved in Lean); `duration` is integer nanoseconds. -/
structure Error where
  code : Int
  detail : String
  errType : String
  developerFriendly : String
  duration : Int
  deriving DecidableEq, Repr

/-- Possible non-nil results of `checkResponse`: the generic
"expected ... content type, but received ..." error, a JSON decode error
returned as-is, or the assembled typed `Error`. -/
inductive checkErr where
  | unexpectedContentType (expected got : String)
  | decodeFailure (e : DecodeErr)
  | apiError (e : Error)
  deriving DecidableEq, Repr

/-- `checkResponse` (client.go): reject a wrong `Content-Type` before
reading the body, accept any 2xx status, and otherwise decode the meta
envelope into a typed `Error`, passing a decode failure through unwrapped.
`none` models a nil error result. -/
def checkResponse (res : httpResponse) : Option checkErr :=
  if res.contentType ≠ jsonContentType then
    some (.unexpectedContentType jsonContentType res.contentType)
  else if 200 ≤ res.statusCode ∧ res.statusCode ≤ 299 then
    none
  else
    match res.body with
    | none => some (.decodeFailure .syntaxError)
    | some j =>
        match decodeAPIErr j with
        | .error e => some (.decodeFailure e)
        | .ok m => some (.apiError ⟨m.code, m.errorDetail, m.errorType, m.developerFriendly,
            m.responseTime⟩)

/-! ### URL query values and `Client.request` credential injection -/

/-- `url.Values`, a map from key to a list of values.  Modelled as an
association list with unique keys (Go maps cannot repeat a key); `get`,
`add` and `set` mirror `url.Values.Get`-style lookup, `Add` and `Set`.
Go's map iteration order is unspecified, but every property proved below is
stated through `get`, which is insensitive to entry order. -/
abbrev Values := List (String × List String)

/-- All values stored under key `k` (empty when the key is absent). -/
def Values.get : Values → String → List String
  | [], _ => []
  | e :: rest, k => if e.1 = k then e.2 else Values.get rest k

/-- `url.Values.Add`: append a value to the list stored under `k` (keys are
unique, matching a Go map, so updating the first occurrence suffices). -/
def Values.add : Values → String → String → Values
  | [], k, v => [(k, [v])]
  | e :: rest, k, v => if e.1 = k then (e.1, e.2 ++ [v]) :: rest else e :: Values.add rest k v

/-- `url.Values.Set`: replace whatever is stored under `k` by the one value. -/
def Values.set : Values → String → String → Values
  | [], k, v => [(k, [v])]
  | e :: rest, k, v => if e.1 = k then (k, [v]) :: rest else e :: Values.set rest k v

/-- The two nested `range` loops of `Client.request` that `Add` every
caller-supplied query parameter into the URL's query values. -/
def Values.addAll (q : Values) (query : Values) : Values :=
  query.foldl (fun acc kv => kv.2.foldl (fun acc2 vv => acc2.add kv.1 vv) acc) q

/-- The credential state of a `Client` (the HTTP transport, base URL and
service handles play no part in the properties below). -/
structure Client where
  clientID : String
  clientSecret : String
  accessToken : String
  deriving DecidableEq, Repr

/-- Query assembly of `Client.request` (client.go): start from the resolved
URL's query (empty, since every endpoint path is query-free), `Add` every
caller-supplied parameter, then inject credentials: a non-empty access token
sets `access_token`; otherwise both `client_id` and `client_secret` are set. -/
def Client.requestQuery (c : Client) (query : Values) : Values :=
  let q : Values := []
  let q := Values.addAll q query
  if c.accessToken ≠ "" then
    q.set "access_token" c.accessToken
  else
    (q.set "client_id" c.clientID).set "client_secret" c.clientSecret

/-! ### Client construction -/

/-- The package-level sentinel errors.  `errors.New` allocates a fresh
identity for each, so two sentinels with identical message text are still
distinct errors; constructor identity models that. -/
inductive sentinelErr where
  | noAccessToken
  | noClientID
  | noClientSecret
  deriving DecidableEq, Repr

/-- The message text each sentinel was created with (`errors.New`'s
argument).  `ErrNoAccessToken`'s text is, verbatim, "no client ID". -/
def sentinelErr.message : sentinelErr → String
  | .noAccessToken => "no client ID"
  | .noClientID => "no client ID"
  | .noClientSecret => "no client secret"

/-- `ErrNoAccessToken` as declared at client.go line 39. -/
def ErrNoAccessToken : sentinelErr := .noAccessToken

/-- `ErrNoClientID` as declared at client.go line 42. -/
def ErrNoClientID : sentinelErr := .noClientID

/-- `ErrNoClientSecret` as declared at client.go line 46. -/
def ErrNoClientSecret : sentinelErr := .noClientSecret

/-- Common client setup (`newClient`); the nil-transport fallback to
`http.DefaultClient` concerns only the unmodelled HTTP collaborator. -/
def newClient (clientID clientSecret accessToken : String) : Client :=
  ⟨clientID, clientSecret, accessToken⟩

/-- `NewClient`: reject an empty client ID, then an empty client secret. -/
def NewClient (clientID clientSecret : String) : Except sentinelErr Client :=
  if clientID = "" then .error ErrNoClientID
  else if clientSecret = "" then .error ErrNoClientSecret
  else .ok (newClient clientID clientSecret "")

/-- `NewAuthenticatedClient`: reject an empty access token (returning nil
and `ErrNoAccessToken`), else build a client holding only the token. -/
def NewAuthenticatedClient (accessToken : String) : Except sentinelErr Client :=
  if accessToken = "" then .error ErrNoAccessToken
  else .ok (newClient "" "" accessToken)

/-! ### User checkin endpoints (user_checkins.go) -/

/-- `math.MaxInt32`. -/
def maxInt32 : Int := 2147483647

/-- `strconv.Itoa`. -/
def goItoa (n : Int) : String := toString n

/-- Request construction of `UserService.CheckinsMinMaxIDLimit`: `min_id` is
sent only when it differs from `0`, `max_id` only when it differs from
`math.MaxInt32`, and `limit` always; the pair is the endpoint passed to
`Client.getCheckins` together with the query values.  The HTTP round trip
and the decoding that follow are `getCheckins` (modelled separately). -/
def UserService.CheckinsMinMaxIDLimit (username : String) (minID maxID limit : Int) :
    String × Values :=
  let v : Values := []
  let v := if minID ≠ 0 then v.set "min_id" (goItoa minID) else v
  let v := if maxID ≠ maxInt32 then v.set "max_id" (goItoa maxID) else v
  let v := v.set "limit" (goItoa limit)
  ("user/checkins/" ++ username, v)

/-- `UserService.Checkins`: the documented defaults, minimum ID `0`, maximum
ID `math.MaxInt32` and limit `25`. -/
def UserService.Checkins (username : String) : String × Values :=
  UserService.CheckinsMinMaxIDLimit username 0 maxInt32 25

/-! ### Concrete sample values used by witnesses and counterexamples -/

/-- A zero `UserStats` record. -/
def emptyUserStats : UserStats := ⟨0, 0, 0, 0, 0, 0, 0⟩

/-- A zero-valued raw user. -/
def emptyRawUser : rawUser :=
  ⟨0, 0, "", "", "", "", "", "", "", "", "", false, "", emptyUserStats⟩

/-- A zero-valued raw brewery. -/
def emptyRawBrewery : rawBrewery :=
  ⟨0, "", "", "", "", false, ⟨"", "", 0, 0⟩, ⟨"", "", "", ""⟩, "", 0⟩

/-- A zero-valued raw beer with no nested brewery. -/
def emptyRawBeer : rawBeer :=
  ⟨0, "", "", "", 0, 0, "", "", "", "", false, 0, 0, none⟩

/-- The wire venue sentinel: numeric ID 0 and empty name. -/
def emptyRawVenue : rawVenue :=
  ⟨0, "", "", "", false, ⟨"", "", "", "", 0, 0⟩, ⟨"", ""⟩⟩

/-- A benign raw checkin: no venue, no badges, no toasts. -/
def sampleRawCheckin : rawCheckin :=
  ⟨1, emptyRawBeer, emptyRawBrewery, emptyRawUser, emptyRawVenue, 0, "", "", 0, [], 0, []⟩

/-- A raw badge with no levels. -/
def sampleRawBadge : rawBadge := .mk 0 0 "" "" "" false ⟨"", "", ""⟩ "" ⟨0, []⟩

/-- A raw checkin whose badge envelope undercounts: the server-reported
badge count is 0 but one badge item is present. -/
def overcountBadgeCheckin : rawCheckin :=
  ⟨1, emptyRawBeer, emptyRawBrewery, emptyRawUser, emptyRawVenue, 0, "", "", 0,
    [sampleRawBadge], 0, []⟩

/-- A raw checkin whose wire venue has the nonzero ID 5 but an empty name. -/
def venueZeroNameCheckin : rawCheckin :=
  ⟨1, emptyRawBeer, emptyRawBrewery, emptyRawUser,
    ⟨5, "", "", "", false, ⟨"", "", "", "", 0, 0⟩, ⟨"", ""⟩⟩, 0, "", "", 0, [], 0, []⟩

/-- A raw checkin carrying the no-venue sentinel, used as a witness input. -/
def sentinelVenueCheckin : rawCheckin :=
  ⟨2, emptyRawBeer, emptyRawBrewery, emptyRawUser, emptyRawVenue, 0, "", "", 0, [], 0, []⟩

/-- The checkin `sentinelVenueCheckin` exports to (its export succeeds). -/
def sentinelVenueCheckinDom : Checkin := (rawCheckin.export sentinelVenueCheckin).get (by rfl)

/-! ## Helper lemmas -/

/-- Lookup after `Set` on the same key yields exactly the one value. -/
theorem Values.get_set_self (vs : Values) (k v : String) : (vs.set k v).get k = [v] := by
  induction vs with
  | nil => simp [Values.set, Values.get]
  | cons e rest ih =>
      by_cases h : e.1 = k
      · simp [Values.set, Values.get, h]
      · simp [Values.set, Values.get, h, ih]

/-- `Set` leaves every other key unchanged. -/
theorem Values.get_set_ne (vs : Values) (k v k' : String) (h : k' ≠ k) :
    (vs.set k v).get k' = vs.get k' := by
  induction vs with
  | nil => simp [Values.set, Values.get, Ne.symm h]
  | cons e rest ih =>
      by_cases he : e.1 = k
      · subst he
        simp [Values.set, Values.get, Ne.symm h, h]
      · by_cases he' : e.1 = k'
        · simp [Values.set, Values.get, he, he', h]
        · simp [Values.set, Values.get, he, he', ih]

/-- Lookup after `Add` on the same key appends the value. -/
theorem Values.get_add_self (vs : Values) (k v : String) :
    (vs.add k v).get k = vs.get k ++ [v] := by
  induction vs with
  | nil => simp [Values.add, Values.get]
  | cons e rest ih =>
      by_cases h : e.1 = k
      · simp [Values.add, Values.get, h]
      · simp [Values.add, Values.get, h, ih]

/-- `Add` leaves every other key unchanged. -/
theorem Values.get_add_ne (vs : Values) (k v k' : String) (h : k' ≠ k) :
    (vs.add k v).get k' = vs.get k' := by
  induction vs with
  | nil => simp [Values.add, Values.get, Ne.symm h]
  | cons e rest ih =>
      by_cases he : e.1 = k
      · subst he
        simp [Values.add, Values.get, Ne.symm h, h]
      · by_cases he' : e.1 = k'
        · simp [Values.add, Values.get, he, he', h]
        · simp [Values.add, Values.get, he, he', ih]

/-- A key that does not occur has no values. -/
theorem Values.get_eq_nil_of_not_mem (vs : Values) (k : String)
    (h : k ∉ vs.map Prod.fst) : vs.get k = [] := by
  induction vs with
  | nil => simp [Values.get]
  | cons e rest ih =>
      simp only [List.map_cons, List.mem_cons] at h
      push_neg at h
      simp [Values.get, Ne.symm h.1, ih h.2]

/-- Folding `Add` of each of `xs` under one key appends them all. -/
theorem Values.get_foldl_add_self (xs : List String) (acc : Values) (k : String) :
    (xs.foldl (fun a vv => a.add k vv) acc).get k = acc.get k ++ xs := by
  induction xs generalizing acc with
  | nil => simp
  | cons x rest ih => simp [List.foldl_cons, ih, Values.get_add_self]

/-- Folding `Add` under one key leaves other keys unchanged. -/
theorem Values.get_foldl_add_ne (xs : List String) (acc : Values) (k k' : String)
    (h : k' ≠ k) :
    (xs.foldl (fun a vv => a.add k vv) acc).get k' = acc.get k' := by
  induction xs generalizing acc with
  | nil => simp
  | cons x rest ih => simp [List.foldl_cons, ih, Values.get_add_ne _ _ _ _ h]

/-- Merging a whole query (whose keys are unique, as in a Go map) by `Add`
appends each key's values to what the accumulator already holds. -/
theorem Values.get_addAll (q : Values) (query : Values) (k : String)
    (hnd : (query.map Prod.fst).Nodup) :
    (Values.addAll q query).get k = q.get k ++ query.get k := by
  induction query generalizing q with
  | nil => simp [Values.addAll, Values.get]
  | cons e rest ih =>
      simp only [List.map_cons, List.nodup_cons] at hnd
      rw [Values.addAll] at *
      simp only [List.foldl_cons]
      rw [show (List.foldl (fun acc kv => kv.2.foldl (fun a vv => a.add kv.1 vv) acc)
        (e.2.foldl (fun a vv => a.add e.1 vv) q) rest : Values) =
        Values.addAll (e.2.foldl (fun a vv => a.add e.1 vv) q) rest from rfl]
      rw [ih _ hnd.2]
      by_cases hk : k = e.1
      · subst hk
        rw [Values.get_foldl_add_self]
        rw [Values.get_eq_nil_of_not_mem rest _ hnd.1]
        simp [Values.get]
      · rw [Values.get_foldl_add_ne _ _ _ _ hk]
        simp [Values.get, Ne.symm hk]

/-! ## C8: wire boolean decoding -/

/-- C8: the boolean decoder maps the JSON integer 0 to false and 1 to true,
rejects every other integer with the invalid-boolean error, and rejects
non-integer JSON (strings, float literals) with a decode error; no other
truthy/falsy coercion occurs. -/
theorem c8_bool_decode :
    responseBool.unmarshalJSON (.int 0) = .ok false
  ∧ responseBool.unmarshalJSON (.int 1) = .ok true
  ∧ (∀ n : Int, n ≠ 0 → n ≠ 1 → responseBool.unmarshalJSON (.int n) = .error .invalidBool)
  ∧ (∀ s : String, responseBool.unmarshalJSON (.str s) = .error .typeMismatch)
  ∧ (∀ q : ℚ, responseBool.unmarshalJSON (.float q) = .error .typeMismatch) := by
  refine ⟨rfl, rfl, ?_, fun _ => rfl, fun _ => rfl⟩
  intro n h0 h1
  simp [responseBool.unmarshalJSON, decodeInt, Bind.bind, Except.bind, h0, h1]

/-- Witness for C8 at the concrete inputs 2, "true" and 1.5. -/
theorem c8_bool_decode_witness :
    responseBool.unmarshalJSON (.int 2) = .error .invalidBool
  ∧ responseBool.unmarshalJSON (.str "true") = .error .typeMismatch
  ∧ responseBool.unmarshalJSON (.float (mkRat 3 2)) = .error .typeMismatch :=
  ⟨c8_bool_decode.2.2.1 2 (by decide) (by decide),
   c8_bool_decode.2.2.2.1 "true",
   c8_bool_decode.2.2.2.2 (mkRat 3 2)⟩

/-! ## C9: default user checkin feed parameters -/

/-- C9 counterexample: with the default parameters, the request built for
`user/checkins/foo` carries only `limit=25`; `min_id` and `max_id` are
absent from the query, not present as `min_id=0` and `max_id=2147483647` as
the claim states. -/
theorem c9_default_query_counterexample :
    (UserService.Checkins "foo").2 = [("limit", ["25"])]
  ∧ (UserService.Checkins "foo").2.get "min_id" = []
  ∧ (UserService.Checkins "foo").2.get "max_id" = [] := by
  refine ⟨?_, ?_, ?_⟩ <;> rfl

/-- C9 amended: `Checkins(username)` equals
`CheckinsMinMaxIDLimit(username, 0, 2^31-1, 25)` and issues a GET to
`user/checkins/{username}`, but the query contains only `limit=25`:
`min_id` is omitted because it equals the default 0 and `max_id` because it
equals the default `math.MaxInt32`. -/
theorem c9_user_checkins_amended (username : String) :
    UserService.Checkins username = UserService.CheckinsMinMaxIDLimit username 0 maxInt32 25
  ∧ maxInt32 = 2147483647
  ∧ (UserService.Checkins username).1 = "user/checkins/" ++ username
  ∧ (UserService.Checkins username).2.get "limit" = ["25"]
  ∧ (UserService.Checkins username).2.get "min_id" = []
  ∧ (UserService.Checkins username).2.get "max_id" = [] := by
  refine ⟨rfl, rfl, rfl, rfl, rfl, rfl⟩

/-! ## C10: construction sentinels -/

/-- C10: `NewAuthenticatedClient("")` fails with `ErrNoAccessToken`, whose
message text is "no client ID", character-identical to `ErrNoClientID`'s
message, while the two sentinels remain distinct error identities. -/
theorem c10_err_no_access_token :
    NewAuthenticatedClient "" = .error ErrNoAccessToken
  ∧ ErrNoAccessToken.message = "no client ID"
  ∧ ErrNoAccessToken.message = ErrNoClientID.message
  ∧ ErrNoAccessToken ≠ ErrNoClientID := by
  refine ⟨rfl, rfl, rfl, by decide⟩


/-! ## C5: query merging and credential injection -/

/-- C5 counterexample: a caller-supplied `access_token` query parameter is
not carried unchanged — when the client holds a (different) access token,
the injection step overwrites the caller's value. -/
theorem c5_credential_overwrite_counterexample :
    (Client.requestQuery ⟨"id", "secret", "tok"⟩ [("access_token", ["caller"])]).get
      "access_token" = ["tok"]
  ∧ (["tok"] : List String) ≠ ["caller"] :=
  ⟨rfl, by decide⟩

/-- C5 amended: every caller-supplied query parameter under a key other than
the three credential keys reaches the final query unchanged; when the
client's access token is non-empty it is set as `access_token` (taking
precedence over both any caller-supplied value and the client-ID form) and
the injection step adds neither `client_id` nor `client_secret`; when the
access token is empty, `client_id` and `client_secret` are set from the
stored credentials.  Caller keys are unique, as in a Go map. -/
theorem c5_request_query_amended (c : Client) (query : Values)
    (hnd : (query.map Prod.fst).Nodup) :
    (∀ k, k ≠ "access_token" → k ≠ "client_id" → k ≠ "client_secret" →
      (c.requestQuery query).get k = query.get k)
  ∧ (c.accessToken ≠ "" →
      (c.requestQuery query).get "access_token" = [c.accessToken]
    ∧ (c.requestQuery query).get "client_id" = query.get "client_id"
    ∧ (c.requestQuery query).get "client_secret" = query.get "client_secret")
  ∧ (c.accessToken = "" →
      (c.requestQuery query).get "client_id" = [c.clientID]
    ∧ (c.requestQuery query).get "client_secret" = [c.clientSecret]) := by
  have hbase : ∀ k, (Values.addAll [] query).get k = query.get k := by
    intro k
    rw [Values.get_addAll _ _ _ hnd]
    simp [Values.get]
  by_cases ht : c.accessToken = ""
  · refine ⟨?_, fun h => absurd ht h, fun _ => ⟨?_, ?_⟩⟩
    · intro k h1 h2 h3
      simp only [Client.requestQuery, ht, ne_eq, not_true_eq_false, if_false]
      rw [Values.get_set_ne _ _ _ _ h3, Values.get_set_ne _ _ _ _ h2, hbase]
    · simp only [Client.requestQuery, ht, ne_eq, not_true_eq_false, if_false]
      rw [Values.get_set_ne _ _ _ _ (by decide), Values.get_set_self]
    · simp only [Client.requestQuery, ht, ne_eq, not_true_eq_false, if_false]
      rw [Values.get_set_self]
  · refine ⟨?_, fun _ => ⟨?_, ?_, ?_⟩, fun h => absurd h ht⟩
    · intro k h1 h2 h3
      simp only [Client.requestQuery, ht, ne_eq, not_false_eq_true, if_true]
      rw [Values.get_set_ne _ _ _ _ h1, hbase]
    · simp only [Client.requestQuery, ht, ne_eq, not_false_eq_true, if_true]
      rw [Values.get_set_self]
    · simp only [Client.requestQuery, ht, ne_eq, not_false_eq_true, if_true]
      rw [Values.get_set_ne _ _ _ _ (by decide), hbase]
    · simp only [Client.requestQuery, ht, ne_eq, not_false_eq_true, if_true]
      rw [Values.get_set_ne _ _ _ _ (by decide), hbase]

/-- Witness for C5 amended at a concrete client and query. -/
theorem c5_request_query_amended_witness :
    (([("limit", ["25"])] : Values).map Prod.fst).Nodup
  ∧ (Client.requestQuery ⟨"id", "secret", "tok"⟩ [("limit", ["25"])]).get "limit" = ["25"]
  ∧ (Client.requestQuery ⟨"id", "secret", "tok"⟩ [("limit", ["25"])]).get "access_token" =
      ["tok"] :=
  ⟨by decide,
   ((c5_request_query_amended ⟨"id", "secret", "tok"⟩ [("limit", ["25"])] (by decide)).1
     "limit" (by decide) (by decide) (by decide)).trans rfl,
   ((c5_request_query_amended ⟨"id", "secret", "tok"⟩ [("limit", ["25"])] (by decide)).2.1
     (by decide)).1⟩


/-! ## C6: duration decoding -/

/-- On a time value that is exactly `k` millionths, the six-decimal `%f`
rendering is exact and yields `k` micro-units. -/
theorem goMicros_eq_of_grid (t : ℚ) (k : ℤ) (hk : t.num * 1000000 = k * (t.den : ℤ)) :
    goMicros t = k := by
  have hd : (0 : ℤ) < (t.den : ℤ) := by exact_mod_cast t.den_pos
  unfold goMicros
  rw [hk]
  have h1 : 2 * (k * (t.den : ℤ)) + (t.den : ℤ) = (t.den : ℤ) * (2 * k + 1) := by ring
  have h2 : 2 * (t.den : ℤ) = (t.den : ℤ) * 2 := by ring
  rw [h1, h2]
  show (t.den : ℤ) * (2 * k + 1) / ((t.den : ℤ) * 2) = k
  rw [Int.mul_ediv_mul_of_pos _ _ hd]
  omega

/-- A time value that is exactly `k` millionths equals `k / 10^6`. -/
theorem eq_div_of_grid (t : ℚ) (k : ℤ) (hk : t.num * 1000000 = k * (t.den : ℤ)) :
    t = (k : ℚ) / 1000000 := by
  have hq : (t.num : ℚ) * 1000000 = (k : ℚ) * ((t.den : ℚ)) := by exact_mod_cast hk
  have hden0 : ((t.den : ℚ)) ≠ 0 := by
    have := t.den_pos
    positivity
  rw [← Rat.num_div_den t, div_eq_div_iff hden0 (by norm_num)]
  linarith [hq]

/-- C6 counterexample: the duration decoder is not exact on every time
value.  The input one-billionth of a second denotes a duration of exactly
one nanosecond, but the decoder yields zero, because the value passes
through a fixed six-decimal-place rendering before parsing. -/
theorem c6_subgrid_truncation_counterexample :
    responseDuration.unmarshalParsed (mkRat 1 1000000000) "seconds" = .ok 0
  ∧ (mkRat 1 1000000000) * 1000000000 = (1 : ℚ) := by
  constructor
  · decide
  · rw [Rat.mkRat_eq_div]
    norm_num

/-- C6 amended: for a time value that is an exact multiple `k` of one
millionth (which the internal `%f` rendering preserves), measures
"milliseconds", "seconds" and "minutes" decode to exactly `t` units of the
measure; any other measure string fails with the distinct invalid-time-unit
error rather than silently yielding zero. -/
theorem c6_duration_decode_amended (t : ℚ) (m : String) :
    (∀ k : ℤ, t.num * 1000000 = k * (t.den : ℤ) →
        (m = "milliseconds" → ∃ d : ℤ,
          responseDuration.unmarshalParsed t m = .ok d ∧ (d : ℚ) = t * 1000000)
      ∧ (m = "seconds" → ∃ d : ℤ,
          responseDuration.unmarshalParsed t m = .ok d ∧ (d : ℚ) = t * 1000000000)
      ∧ (m = "minutes" → ∃ d : ℤ,
          responseDuration.unmarshalParsed t m = .ok d ∧ (d : ℚ) = t * 60000000000))
  ∧ (m ≠ "milliseconds" → m ≠ "seconds" → m ≠ "minutes" →
      responseDuration.unmarshalParsed t m = .error .invalidTimeUnit) := by
  constructor
  · intro k hk
    have ht := eq_div_of_grid t k hk
    refine ⟨?_, ?_, ?_⟩
    · rintro rfl
      refine ⟨k, ?_, ?_⟩
      · have hred : responseDuration.unmarshalParsed t "milliseconds" =
            .ok (goMicros t * (1000000 / 1000000)) := rfl
        rw [hred, goMicros_eq_of_grid t k hk]
        norm_num
      · rw [ht]
        field_simp
    · rintro rfl
      refine ⟨k * 1000, ?_, ?_⟩
      · have hred : responseDuration.unmarshalParsed t "seconds" =
            .ok (goMicros t * (1000000000 / 1000000)) := rfl
        rw [hred, goMicros_eq_of_grid t k hk]
        norm_num
      · rw [ht]
        push_cast
        field_simp
        ring
    · rintro rfl
      refine ⟨k * 60000, ?_, ?_⟩
      · have hred : responseDuration.unmarshalParsed t "minutes" =
            .ok (goMicros t * (60000000000 / 1000000)) := rfl
        rw [hred, goMicros_eq_of_grid t k hk]
        norm_num
      · rw [ht]
        push_cast
        field_simp
        ring
  · intro h1 h2 h3
    simp [responseDuration.unmarshalParsed, timeUnits, goParseDurationNs, h1, h2, h3]

/-- Witness for C6 amended: half a second is 500000 millionths and decodes
to 500 milliseconds; measure "hours" is rejected. -/
theorem c6_duration_decode_amended_witness :
    ((mkRat 1 2).num * 1000000 = 500000 * ((mkRat 1 2).den : ℤ))
  ∧ (∃ d : ℤ, responseDuration.unmarshalParsed (mkRat 1 2) "seconds" = .ok d
      ∧ (d : ℚ) = (mkRat 1 2) * 1000000000)
  ∧ responseDuration.unmarshalParsed (mkRat 1 2) "hours" = .error .invalidTimeUnit :=
  ⟨by decide,
   (((c6_duration_decode_amended (mkRat 1 2) "seconds").1 500000 (by decide)).2.1) rfl,
   (c6_duration_decode_amended (mkRat 1 2) "hours").2 (by decide) (by decide) (by decide)⟩


/-! ## C7: optional-nested-list (badge levels) decoding -/

/-- C7: the badge-levels decoder returns count 0 and no items on the exact
empty-array sentinel with no error (and does so before object decoding is
attempted — decoding `[]` as the object shape fails); an object with `count`
and `items` yields exactly the decoded count and items; an object whose
`count` is malformed yields a decode error. -/
theorem c7_badge_levels_decode {α : Type} (dec : Json → Except DecodeErr α) :
    responseBadgeLevels.unmarshalJSON dec (.arr []) = .ok ⟨0, []⟩
  ∧ (∀ (flds : List (String × Json)) (n : Int) (xs : List Json) (ys : List α),
      (Json.obj flds).getField? "count" = some (.int n) →
      (Json.obj flds).getField? "items" = some (.arr xs) →
      decodeList dec xs = .ok ys →
      responseBadgeLevels.unmarshalJSON dec (.obj flds) = .ok ⟨n, ys⟩)
  ∧ (∃ e, responseBadgeLevels.decodeObject dec (.arr []) = .error e)
  ∧ (∀ (flds : List (String × Json)) (s : String),
      (Json.obj flds).getField? "count" = some (.str s) →
      ∃ e, responseBadgeLevels.unmarshalJSON dec (.obj flds) = .error e) := by
  refine ⟨rfl, ?_, ⟨.typeMismatch, rfl⟩, ?_⟩
  · intro flds n xs ys hcount hitems hmap
    simp [responseBadgeLevels.unmarshalJSON, responseBadgeLevels.decodeObject, decodeField,
      hcount, hitems, decodeInt, decodeArray, hmap, Bind.bind, Except.bind]

  · intro flds s hcount
    refine ⟨.typeMismatch, ?_⟩
    simp [responseBadgeLevels.unmarshalJSON, responseBadgeLevels.decodeObject, decodeField,
      hcount, decodeInt, Bind.bind, Except.bind]

/-- Witness for C7 at the sentinel, a two-item object, and a malformed
object, with the integer decoder as item decoder. -/
theorem c7_badge_levels_decode_witness :
    ((Json.obj [("count", .int 2), ("items", .arr [.int 7, .int 8])]).getField? "count" =
      some (.int 2))
  ∧ responseBadgeLevels.unmarshalJSON decodeInt
      (.obj [("count", .int 2), ("items", .arr [.int 7, .int 8])]) = .ok ⟨2, [7, 8]⟩
  ∧ responseBadgeLevels.unmarshalJSON decodeInt (.arr []) = .ok ⟨0, []⟩
  ∧ (∃ e, responseBadgeLevels.unmarshalJSON decodeInt
      (.obj [("count", .str "x")]) = .error e) :=
  ⟨rfl,
   (c7_badge_levels_decode decodeInt).2.1 [("count", .int 2), ("items", .arr [.int 7, .int 8])]
     2 [.int 7, .int 8] [7, 8] rfl rfl rfl,
   (c7_badge_levels_decode decodeInt).1,
   (c7_badge_levels_decode decodeInt).2.2.2 [("count", .str "x")] "x" rfl⟩

/-! ## C1: response classification -/

/-- C1: `checkResponse` rejects a non-JSON content type with the generic
unexpected-content-type error, independently of the body and of the status
code; with the JSON content type it accepts any status in [200, 299]
regardless of body; otherwise it decodes the meta envelope, building a typed
`Error` whose code, detail, type, developer-friendly text and duration come
from the envelope's fields, and passes any body decode failure through
as-is, unwrapped. -/
theorem c1_checkResponse_classification (ct : String) (sc : Int) (body body2 : Option Json) :
    (ct ≠ jsonContentType →
        checkResponse ⟨ct, sc, body⟩ = some (.unexpectedContentType jsonContentType ct)
      ∧ checkResponse ⟨ct, sc, body⟩ = checkResponse ⟨ct, sc, body2⟩)
  ∧ (ct = jsonContentType → 200 ≤ sc → sc ≤ 299 → checkResponse ⟨ct, sc, body⟩ = none)
  ∧ (ct = jsonContentType → ¬(200 ≤ sc ∧ sc ≤ 299) →
        (body = none → checkResponse ⟨ct, sc, body⟩ = some (.decodeFailure .syntaxError))
      ∧ (∀ j e, body = some j → decodeAPIErr j = .error e →
          checkResponse ⟨ct, sc, body⟩ = some (.decodeFailure e))
      ∧ (∀ j m, body = some j → decodeAPIErr j = .ok m →
          checkResponse ⟨ct, sc, body⟩ = some (.apiError
            ⟨m.code, m.errorDetail, m.errorType, m.developerFriendly, m.responseTime⟩))) := by
  refine ⟨?_, ?_, ?_⟩
  · intro h
    constructor
    · simp [checkResponse, h]
    · simp [checkResponse, h]
  · intro h h1 h2
    simp [checkResponse, h, h1, h2]
  · intro h hs
    refine ⟨?_, ?_, ?_⟩
    · rintro rfl
      simp [checkResponse, h, hs]
    · rintro j e rfl hdec
      simp [checkResponse, h, hs, hdec]
    · rintro j m rfl hdec
      simp [checkResponse, h, hs, hdec]

/-- Witness for C1: a JSON 404 with a well-formed meta envelope produces the
matching typed error; the same envelope behind a text/html content type is
rejected before the body is read. -/
theorem c1_checkResponse_classification_witness :
    decodeAPIErr (.obj [("meta", .obj [("code", .int 404), ("error_detail", .str "nope"),
        ("error_type", .str "invalid_ID"),
        ("response_time", .obj [("time", .int 5), ("measure", .str "milliseconds")])])]) =
      .ok ⟨404, "nope", "invalid_ID", "", 5000000⟩
  ∧ checkResponse ⟨"application/json", 404,
      some (.obj [("meta", .obj [("code", .int 404), ("error_detail", .str "nope"),
        ("error_type", .str "invalid_ID"),
        ("response_time", .obj [("time", .int 5), ("measure", .str "milliseconds")])])])⟩ =
      some (.apiError ⟨404, "nope", "invalid_ID", "", 5000000⟩)
  ∧ checkResponse ⟨"text/html", 404, none⟩ =
      some (.unexpectedContentType "application/json" "text/html") :=
  ⟨by decide,
   (c1_checkResponse_classification "application/json" 404
      (some (.obj [("meta", .obj [("code", .int 404), ("error_detail", .str "nope"),
        ("error_type", .str "invalid_ID"),
        ("response_time", .obj [("time", .int 5), ("measure", .str "milliseconds")])])]))
      none).2.2 rfl (by decide) |>.2.2 _ ⟨404, "nope", "invalid_ID", "", 5000000⟩ rfl (by decide),
   ((c1_checkResponse_classification "text/html" 404 none none).1 (by decide)).1⟩


/-! ## C2, C3, C4: checkin list assembly and raw-to-domain mapping -/

/-- Sequencing a list of already-successful writes succeeds with the values. -/
theorem sequenceOpt_map_some (ys : List β) : sequenceOpt (ys.map some) = some ys := by
  induction ys with
  | nil => rfl
  | cons y ys ih => simp [sequenceOpt, ih]

/-- When every element write succeeds and the count covers the items, the
index loop fills the first `ys.length` slots and leaves the zero tail. -/
theorem fillByIndex_eq (count : Int) (ys : List β) (zero : β)
    (hlen : (ys.length : Int) ≤ count) :
    fillByIndex count (ys.map some) zero =
      some (ys ++ List.replicate (count.toNat - ys.length) zero) := by
  unfold fillByIndex
  have h0 : ¬count < 0 := by omega
  rw [if_neg h0]
  have h1 : ¬count.toNat < (ys.map some).length := by
    simp only [List.length_map]
    omega
  rw [if_neg h1]
  rw [sequenceOpt_map_some]
  simp

/-- C2 (code bug evidence): on a decoded checkin-feed response whose items
array contains more elements than the server-reported count, the list
assembly of `getCheckins` panics (an out-of-range slice write, `none` here)
instead of returning normally; likewise `rawCheckin.export` panics when a
checkin's badge envelope undercounts its items. -/
theorem c2_short_count_panics :
    getCheckinsBuild 0 [sampleRawCheckin] = none
  ∧ rawCheckin.export overcountBadgeCheckin = none :=
  ⟨rfl, rfl⟩

/-- C3 counterexample: a wire venue with the nonzero ID 5 and an empty name
is exported as a nil venue, although the claim, which declares the nil venue
exactly for ID 0 with empty name, requires this venue to be non-nil. -/
theorem c3_venue_absence_counterexample :
    (rawCheckin.export venueZeroNameCheckin).map Checkin.venue = some none
  ∧ ¬(venueZeroNameCheckin.venue.id = 0 ∧ venueZeroNameCheckin.venue.name = "") :=
  ⟨rfl, by decide⟩

/-- C3 amended: for every raw checkin whose export completes, the exported
venue is nil exactly when the wire venue's ID is 0 OR its name is empty;
only a venue with both a nonzero ID and a non-empty name is exported
non-nil. -/
theorem c3_venue_absence_amended (r : rawCheckin) (c : Checkin)
    (h : rawCheckin.export r = some c) :
    (c.venue = none ↔ (r.venue.id = 0 ∨ r.venue.name = "")) := by
  rw [rawCheckin.export] at h
  cases hB : fillByIndex r.badgesCount (exportBadgePtrs r.badgesItems) none with
  | none => simp [Bind.bind, hB] at h
  | some badges =>
      cases hT : fillByIndex r.toastsCount
          (r.toastsItems.map (fun t => (rawToast.export t).map some)) none with
      | none => simp [Bind.bind, hB, hT] at h
      | some toasts =>
          simp only [Bind.bind, hB, hT, Option.some_bind, pure, Option.some.injEq] at h
          rw [← h]
          show (if r.venue.id ≠ 0 ∧ r.venue.name ≠ "" then some (rawVenue.export r.venue)
            else none) = none ↔ (r.venue.id = 0 ∨ r.venue.name = "")
          by_cases hv : r.venue.id ≠ 0 ∧ r.venue.name ≠ ""
          · rw [if_pos hv]
            simp only [reduceCtorEq, false_iff]
            push_neg
            exact hv
          · rw [if_neg hv]
            simp only [true_iff]
            push_neg at hv
            by_cases h0 : r.venue.id = 0
            · exact Or.inl h0
            · exact Or.inr (hv h0)

/-- Witness for C3 amended at a checkin carrying the no-venue sentinel. -/
theorem c3_venue_absence_amended_witness :
    rawCheckin.export sentinelVenueCheckin = some sentinelVenueCheckinDom
  ∧ (sentinelVenueCheckinDom.venue = none ↔
      (sentinelVenueCheckin.venue.id = 0 ∨ sentinelVenueCheckin.venue.name = "")) :=
  ⟨(Option.some_get _).symm,
   c3_venue_absence_amended sentinelVenueCheckin sentinelVenueCheckinDom
     (Option.some_get _).symm⟩

/-- C4 counterexample: when the items array is longer than the
server-reported count (count 1, two items), the assembly returns no slice at
all (it panics), so it is not the case that element 0 of the result is the
export of items[0] with no error. -/
theorem c4_overcount_counterexample :
    getCheckinsBuild 1 [sampleRawCheckin, sampleRawCheckin] = none :=
  rfl

/-- C4 amended: provided the items array has at most `count` elements and
every item's export completes, the assembled slice has length exactly the
server-reported count, element `i` is the exported domain form of
`items[i]` for each `i` below the number of wire items, and when items are
fewer than the count the trailing entries remain nil domain objects, with no
error. -/
theorem c4_list_sizing_amended (count : Int) (items : List rawCheckin)
    (hlen : (items.length : Int) ≤ count)
    (hexp : ∀ r ∈ items, (rawCheckin.export r).isSome = true) :
    ∃ l, getCheckinsBuild count items = some l
  ∧ (l.length : Int) = count
  ∧ (∀ i, i < items.length →
      ∃ r, items[i]? = some r ∧ l[i]? = some (rawCheckin.export r))
  ∧ (∀ i, items.length ≤ i → i < l.length → l[i]? = some none) := by
  have hmapped : items.map (fun r => (rawCheckin.export r).map some) =
      (items.map rawCheckin.export).map some := by
    rw [List.map_map]
    apply List.map_congr_left
    intro r hr
    have hs := hexp r hr
    cases hc : rawCheckin.export r with
    | none => rw [hc] at hs; simp at hs
    | some c => simp [hc]
  have hlen' : ((items.map rawCheckin.export).length : Int) ≤ count := by
    simpa using hlen
  refine ⟨(items.map rawCheckin.export) ++
      List.replicate (count.toNat - items.length) none, ?_, ?_, ?_, ?_⟩
  · rw [getCheckinsBuild, hmapped, fillByIndex_eq _ _ _ hlen']
    simp
  · simp only [List.length_append, List.length_map, List.length_replicate]
    omega
  · intro i hi
    refine ⟨items.get ⟨i, hi⟩, by simp, ?_⟩
    rw [List.getElem?_append, if_pos (by simpa using hi)]
    simp [List.getElem?_eq_getElem, hi]
  · intro i h1 h2
    rw [List.getElem?_append_right (by simpa using h1)]
    simp only [List.length_append, List.length_map, List.length_replicate] at h2
    simp only [List.length_map]
    rw [List.getElem?_replicate]
    rw [if_pos (by omega)]

/-- Witness for C4 amended: count 2 with a single benign item yields a
length-2 slice whose second entry is nil. -/
theorem c4_list_sizing_amended_witness :
    (([sampleRawCheckin].length : Int) ≤ 2)
  ∧ (∃ l, getCheckinsBuild 2 [sampleRawCheckin] = some l
      ∧ (l.length : Int) = 2
      ∧ (∀ i, i < [sampleRawCheckin].length →
          ∃ r, [sampleRawCheckin][i]? = some r ∧ l[i]? = some (rawCheckin.export r))
      ∧ (∀ i, [sampleRawCheckin].length ≤ i → i < l.length → l[i]? = some none)) :=
  ⟨by decide,
   c4_list_sizing_amended 2 [sampleRawCheckin] (by decide)
     (by intro r hr; simp at hr; rw [hr]; rfl)⟩


end Untappd
